import Mathlib

/-!
Shallow embedding of the serving core of `bakins/twirp-todo-example`:
the prepared-statement cache (`internal/todo/stmtcache.go`, type `stmtCache`)
and the HTTP server lifecycle manager (package `httpserver`: `Server`,
functional options, `Run`, `WaitForAddress`, middleware chain via
`github.com/justinas/alice`).

Modelling conventions:
- `*sql.Stmt` pointers are modelled as `Option Nat` (`none` is the nil
  pointer, `some n` a distinct non-nil statement object).
- Go `error` values are modelled as `Nat` (a distinct code per error);
  a nullable error is `Option Nat`.
- The Go map `map[string]*sql.Stmt` is an association list with
  overwrite-on-insert semantics.
- The external preparer (`preparerContext.PrepareContext`) is an oracle
  `Nat → String → Except Nat (Option Nat)`: given the number of preparer
  invocations so far and the query, it returns a statement or an error.
  The cache additionally carries the invocation counter so that
  "the creation callback is invoked exactly once" is a statement about
  the model.
-/

/-- State of `stmtCache`: the `statements` map plus a counter of how many
times the external preparer has been invoked (instrumentation for the
exactly-once claims; the Go struct has only the map and the preparer). -/
structure StmtCache where
  statements : List (String × Option Nat)
  invocations : Nat
deriving DecidableEq, Repr

/-- Lookup in the statements map (`c.statements[query]`). -/
def lookupStmt : List (String × Option Nat) → String → Option (Option Nat)
  | [], _ => none
  | (k, w) :: rest, q => if k = q then some w else lookupStmt rest q

/-- Insert/overwrite in the statements map (`c.statements[query] = stmt`). -/
def insertStmt (q : String) (v : Option Nat) : List (String × Option Nat) → List (String × Option Nat)
  | [] => [(q, v)]
  | (k, w) :: rest => if k = q then (k, v) :: rest else (k, w) :: insertStmt q v rest

/-- `newStmtCache`: empty map, no preparer invocations yet. -/
def newStmtCache : StmtCache := { statements := [], invocations := 0 }

/-- `stmtCache.PrepareContext`, sequential semantics (the whole call runs
without interference).  Faithful to the source: read-locked lookup; on a
hit return the cached statement; on a miss take the write lock and invoke
the preparer WITHOUT re-checking the map, caching the result only when the
preparer succeeded. -/
def StmtCache.prepareContext (p : Nat → String → Except Nat (Option Nat))
    (c : StmtCache) (q : String) : Except Nat (Option Nat) × StmtCache :=
  match lookupStmt c.statements q with
  | some stmt => (Except.ok stmt, c)
  | none =>
    let r := p c.invocations q
    let c1 : StmtCache := { c with invocations := c.invocations + 1 }
    match r with
    | Except.ok stmt => (Except.ok stmt, { c1 with statements := insertStmt q stmt c1.statements })
    | Except.error e => (Except.error e, c1)

/-- `stmtCache.QueryContext`: prepare, then run the query on the returned
statement (`work` models `stmt.QueryContext`, whose own failure is
forwarded unwrapped). -/
def StmtCache.queryContext (p : Nat → String → Except Nat (Option Nat))
    (work : Option Nat → Except Nat Nat)
    (c : StmtCache) (q : String) : Except Nat Nat × StmtCache :=
  match StmtCache.prepareContext p c q with
  | (Except.error e, c') => (Except.error e, c')
  | (Except.ok stmt, c') => (work stmt, c')

/-- `stmtCache.ExecContext`: same shape as `QueryContext`. -/
def StmtCache.execContext (p : Nat → String → Except Nat (Option Nat))
    (work : Option Nat → Except Nat Nat)
    (c : StmtCache) (q : String) : Except Nat Nat × StmtCache :=
  match StmtCache.prepareContext p c q with
  | (Except.error e, c') => (Except.error e, c')
  | (Except.ok stmt, c') => (work stmt, c')

/-- The loop body of `stmtCache.Close`: every entry is deleted; nil
statements are skipped; each non-nil statement has its own `Close` invoked
and the returned error (`closeResult s`) is discarded (`_ = stmt.Close()`).
Returns the list of (statement, teardown result) pairs in iteration order. -/
def closeStmts (closeResult : Nat → Option Nat) :
    List (String × Option Nat) → List (Nat × Option Nat)
  | [] => []
  | (_, none) :: rest => closeStmts closeResult rest
  | (_, some s) :: rest => (s, closeResult s) :: closeStmts closeResult rest

/-- `stmtCache.Close`: under the exclusive lock, empty the map and tear
down every non-nil statement, ignoring individual teardown errors. -/
def StmtCache.close (closeResult : Nat → Option Nat) (c : StmtCache) :
    StmtCache × List (Nat × Option Nat) :=
  ({ statements := [], invocations := c.invocations }, closeStmts closeResult c.statements)

/-!
Interleaved semantics of `PrepareContext` for the concurrency claims.

A thread executing `PrepareContext` performs two atomic sections, because
each section runs while holding the lock:
1. `start`: the read-locked lookup (`RLock … RUnlock`); a hit finishes the
   call, a miss moves the thread to `missed`;
2. `missed`: the exclusively-locked section, which — exactly as in the
   source — invokes the preparer immediately, with NO second lookup, and
   stores the result into the map on success.
A schedule (list of thread indices) picks which thread performs its next
atomic section.
-/

deriving instance DecidableEq for Except

/-- Where a thread is inside its `PrepareContext` call. -/
inductive ThreadPhase where
  | start
  | missed
  | done (result : Except Nat (Option Nat))
deriving DecidableEq, Repr

/-- One atomic section of one thread calling `PrepareContext p · q`. -/
def threadStep (p : Nat → String → Except Nat (Option Nat)) (q : String)
    (c : StmtCache) : ThreadPhase → ThreadPhase × StmtCache
  | ThreadPhase.start =>
    match lookupStmt c.statements q with
    | some stmt => (ThreadPhase.done (Except.ok stmt), c)
    | none => (ThreadPhase.missed, c)
  | ThreadPhase.missed =>
    let r := p c.invocations q
    let c1 : StmtCache := { c with invocations := c.invocations + 1 }
    match r with
    | Except.ok stmt =>
      (ThreadPhase.done (Except.ok stmt), { c1 with statements := insertStmt q stmt c1.statements })
    | Except.error e => (ThreadPhase.done (Except.error e), c1)
  | ThreadPhase.done r => (ThreadPhase.done r, c)

/-- Shared cache plus the per-thread positions of concurrent callers. -/
structure RaceState where
  cache : StmtCache
  threads : List ThreadPhase
deriving DecidableEq, Repr

/-- Let thread `i` perform its next atomic section. -/
def stepThread (p : Nat → String → Except Nat (Option Nat)) (q : String)
    (st : RaceState) (i : Nat) : RaceState :=
  match st.threads.get? i with
  | none => st
  | some ph =>
    let r := threadStep p q st.cache ph
    { cache := r.2, threads := st.threads.set i r.1 }

/-- Run a schedule of atomic sections over the shared cache. -/
def runSchedule (p : Nat → String → Except Nat (Option Nat)) (q : String) :
    List Nat → RaceState → RaceState
  | [], st => st
  | i :: rest, st => runSchedule p q rest (stepThread p q st i)

/-- A preparer that, like a real database handle, returns a distinct
fresh non-nil statement on every invocation and never fails. -/
def freshPreparer : Nat → String → Except Nat (Option Nat) :=
  fun n _ => Except.ok (some n)

/-!
Embedding of package `httpserver` (the lifecycle manager referenced by the
claims as `Server`): functional options, `New`, `Handle`,
`RegisterService`, `AddMiddleware`, `Run` and `WaitForAddress`.

Handlers are modelled as trace transformers `List String → List String`
(the request's event log on the way in, extended on the way out), which is
enough to observe middleware ordering.  `net.Listener` values are `Nat`
identifiers; `net.Addr` is recovered from a listener by an oracle.
-/

/-- A request handler, as an observable trace transformer. -/
def HandlerT : Type := List String → List String

/-- An `alice.Constructor`, i.e. a middleware `func(http.Handler) http.Handler`. -/
def MiddlewareT : Type := HandlerT → HandlerT

/-- `alice.Chain.Then` (from `github.com/justinas/alice`): the source loops
`h = c.constructors[len-1-i](h)` from the last constructor to the first,
so the FIRST constructor in the chain ends up outermost. -/
def aliceThen (constructors : List MiddlewareT) (h : HandlerT) : HandlerT :=
  constructors.foldr (fun c acc => c acc) h

/-- `alice.Chain.Append` of a single constructor: the new constructor goes
at the end of the chain. -/
def aliceAppend (constructors : List MiddlewareT) (m : MiddlewareT) : List MiddlewareT :=
  constructors ++ [m]

/-- The private `serverConfig` struct. -/
structure ServerConfig where
  network : String
  address : String
deriving DecidableEq, Repr

/-- A functional `Option` for the server (`serverOptionFunc`): it validates
and mutates the configuration or fails. -/
def ServerOption : Type := ServerConfig → Except String ServerConfig

/-- `WithServerAddress`: rejects the connectionless families `udp` and
`unixgram`, an empty network, and an empty address (in the order the
source checks them); otherwise stores both fields. -/
def withServerAddress (network address : String) : ServerOption :=
  fun c =>
    if network = "udp" ∨ network = "unixgram" then
      Except.error ("unsupported network " ++ network)
    else if network = "" then
      Except.error "network must not be empty"
    else if address = "" then
      Except.error "address must not be empty"
    else
      Except.ok { c with network := network, address := address }

/-- The `for _, o := range options { if err := o.apply(&cfg) ... }` loop of
`New`: apply options in order, stopping at the first error. -/
def applyOptions : List ServerOption → ServerConfig → Except String ServerConfig
  | [], c => Except.ok c
  | o :: rest, c =>
    match o c with
    | Except.error e => Except.error e
    | Except.ok c' => applyOptions rest c'

/-- The default configuration `New` starts from. -/
def defaultServerConfig : ServerConfig := { network := "tcp", address := "127.0.0.1:0" }

/-- A twirp service as seen by the server: its `PathPrefix()` and the
handler it dispatches to (`prefixPath` models the Go method `PathPrefix`). -/
structure TwirpServerM where
  prefixPath : String
  handlerId : Nat
deriving DecidableEq, Repr

/-- `Server` state: configuration, middleware chain, the `http.ServeMux`
route table (pattern ↦ handler id), the set of services registered with
the reflection server, and the atomically published listener slot. -/
structure ServerState where
  config : ServerConfig
  chain : List MiddlewareT
  mux : List (String × Nat)
  reflectionServices : List TwirpServerM
  listenerSlot : Option Nat

/-- `Server.Handle`: adds the handler to the route table — and nothing else. -/
def ServerState.handle (s : ServerState) (pattern : String) (handler : Nat) : ServerState :=
  { s with mux := s.mux ++ [(pattern, handler)] }

/-- `Server.RegisterService`: routes the service at its path prefix AND
registers it with the reflection server. -/
def ServerState.registerService (s : ServerState) (t : TwirpServerM) : ServerState :=
  { s with
    mux := s.mux ++ [(t.prefixPath, t.handlerId)]
    reflectionServices := s.reflectionServices ++ [t] }

/-- `Server.AddMiddleware`: `s.chain = s.chain.Append(middleware)`. -/
def ServerState.addMiddleware (s : ServerState) (m : MiddlewareT) : ServerState :=
  { s with chain := aliceAppend s.chain m }

/-- `New`: fold the options over the default configuration (any option
error aborts construction, wrapped); on success build the server, register
the reflection service with itself, then add the h2c middleware and then
the gzip middleware.  The reflection service and the two library
middlewares are external collaborators, passed in as oracles. -/
def newServer (reflectionService : TwirpServerM) (h2c gzip : MiddlewareT)
    (options : List ServerOption) : Except String ServerState :=
  match applyOptions options defaultServerConfig with
  | Except.error e => Except.error ("failed to create HTTP server " ++ e)
  | Except.ok cfg =>
    let s : ServerState :=
      { config := cfg, chain := [], mux := [], reflectionServices := [], listenerSlot := none }
    let s := s.registerService reflectionService
    let s := s.addMiddleware h2c
    let s := s.addMiddleware gzip
    Except.ok s

/-- The sentinel `http.ErrServerClosed`, the error `(*http.Server).Serve`
returns after a graceful `Shutdown` closes the listener. -/
def errServerClosed : Nat := 0

/-- `Run`'s result type: a bind failure wrapped with the attempted
network/address, or a serve-task failure. -/
inductive RunError where
  | bindFailed (network address : String) (e : Nat)
  | serveFailed (e : Nat)
deriving DecidableEq, Repr

/-- The serve task: `if err := svr.Serve(listener); err != nil { if err !=
http.ErrServerClosed { return err } }; return nil`. -/
def serveTaskResult (serveErr : Option Nat) : Option RunError :=
  match serveErr with
  | some e => if e = errServerClosed then none else some (RunError.serveFailed e)
  | none => none

/-- The shutdown-watcher task: waits for cancellation, calls
`svr.Shutdown` discarding its error (`_ = svr.Shutdown(...)`), and always
returns nil — whatever the shutdown attempt produced. -/
def shutdownWatcherResult (shutdownErr : Option Nat) : Option RunError :=
  match shutdownErr with
  | some _ => none
  | none => none

/-- `errgroup.Group.Wait`: the overall result is the first non-nil task
error (nil when every task returned nil). -/
def egWait : List (Option RunError) → Option RunError
  | [] => none
  | some e :: _ => some e
  | none :: rest => egWait rest

/-- `Server.Run`: bind the listener (a bind failure returns immediately,
wrapped, with the server state untouched); publish the listener into the
atomic slot; then join the serve task and the shutdown-watcher task.  The
environment's behaviour is supplied as oracles: `bindResult` (what
`net.Listen` did), `serveErr` (what `svr.Serve` returned) and
`shutdownErr` (what `svr.Shutdown` returned when cancellation fired). -/
def ServerState.run (s : ServerState) (bindResult : Except Nat Nat)
    (serveErr : Option Nat) (shutdownErr : Option Nat) : ServerState × Option RunError :=
  match bindResult with
  | Except.error e =>
    (s, some (RunError.bindFailed s.config.network s.config.address e))
  | Except.ok listener =>
    let s' := { s with listenerSlot := some listener }
    (s', egWait [serveTaskResult serveErr, shutdownWatcherResult shutdownErr])

/-- The ticker period of `WaitForAddress`, `time.Millisecond * 100`. -/
def tickPeriodMillis : Nat := 100

/-- One iteration of `WaitForAddress`'s `select`: either the cancellation
signal was ready (`<-ctx.Done()`, carrying `ctx.Err()`), or the ticker
fired (`<-t.C`). -/
inductive WaitObs where
  | cancelled (e : Nat)
  | tick
deriving DecidableEq, Repr

/-- `Server.WaitForAddress`: loop over the observed `select` outcomes.  On
cancellation return `ctx.Err()`; on a tick load the listener slot and, if a
listener is published there, return its address (`addrOf`); otherwise keep
polling.  `slotAt i` is the slot's content at the i-th iteration; `none`
as the overall result means the call is still looping after the observed
events. -/
def waitForAddressFrom (slotAt : Nat → Option Nat) (addrOf : Nat → Nat) :
    Nat → List WaitObs → Option (Except Nat Nat)
  | _, [] => none
  | _, WaitObs.cancelled e :: _ => some (Except.error e)
  | i, WaitObs.tick :: rest =>
    match slotAt i with
    | some l => some (Except.ok (addrOf l))
    | none => waitForAddressFrom slotAt addrOf (i + 1) rest

/-- A middleware that tags the trace on the way in and on the way out,
to make pre/post-processing order observable. -/
def tagMiddleware (i : String) : MiddlewareT :=
  fun h trace => (h (trace ++ ["pre_" ++ i])) ++ ["post_" ++ i]

/-- The innermost application handler (the mux), tagging the trace. -/
def baseApp : HandlerT := fun trace => trace ++ ["app"]

/-- A server with default configuration and nothing registered, used as a
concrete state in counterexamples and witnesses. -/
def emptyServer : ServerState :=
  { config := defaultServerConfig, chain := [], mux := [], reflectionServices := [],
    listenerSlot := none }

/-! Helper lemmas. -/

/-- Inserting one key does not change the lookup of another key. -/
theorem lookupStmt_insertStmt_ne (q q' : String) (w : Option Nat)
    (h : q' ≠ q) :
    ∀ l : List (String × Option Nat), lookupStmt (insertStmt q' w l) q = lookupStmt l q := by
  intro l
  induction l with
  | nil => simp [insertStmt, lookupStmt, h]
  | cons kv rest ih =>
    obtain ⟨k, x⟩ := kv
    by_cases hk : k = q'
    · subst hk
      simp [insertStmt, lookupStmt, h]
    · simp only [insertStmt, if_neg hk, lookupStmt]
      by_cases hq : k = q
      · simp [hq]
      · simp [hq, ih]

/-- `QueryContext` changes the cache exactly as its inner `PrepareContext`. -/
theorem queryContext_cache (p : Nat → String → Except Nat (Option Nat))
    (work : Option Nat → Except Nat Nat) (c : StmtCache) (q : String) :
    (StmtCache.queryContext p work c q).2 = (StmtCache.prepareContext p c q).2 := by
  unfold StmtCache.queryContext
  rcases h : StmtCache.prepareContext p c q with ⟨r, c'⟩
  cases r <;> simp

/-- `ExecContext` changes the cache exactly as its inner `PrepareContext`. -/
theorem execContext_cache (p : Nat → String → Except Nat (Option Nat))
    (work : Option Nat → Except Nat Nat) (c : StmtCache) (q : String) :
    (StmtCache.execContext p work c q).2 = (StmtCache.prepareContext p c q).2 := by
  unfold StmtCache.execContext
  rcases h : StmtCache.prepareContext p c q with ⟨r, c'⟩
  cases r <;> simp

/-- Any `PrepareContext` call preserves an existing cached entry. -/
theorem prepareContext_preserves_entry (p : Nat → String → Except Nat (Option Nat))
    (c : StmtCache) (q : String) (v : Option Nat)
    (h : lookupStmt c.statements q = some v) (q' : String) :
    lookupStmt ((StmtCache.prepareContext p c q').2).statements q = some v := by
  by_cases hq : q' = q
  · subst hq
    simp [StmtCache.prepareContext, h]
  · unfold StmtCache.prepareContext
    cases hl : lookupStmt c.statements q' with
    | some stmt => simpa using h
    | none =>
      cases hp : p c.invocations q' with
      | ok stmt => simpa [lookupStmt_insertStmt_ne q q' stmt hq] using h
      | error e => simpa using h

/-- `Close` invokes the per-statement teardown on exactly the non-nil
cached statements, whatever the individual teardowns return. -/
theorem closeStmts_map_fst (f : Nat → Option Nat) :
    ∀ l : List (String × Option Nat),
      (closeStmts f l).map Prod.fst = l.filterMap Prod.snd := by
  intro l
  induction l with
  | nil => rfl
  | cons kv rest ih =>
    rcases kv with ⟨k, v⟩
    cases v <;> simp [closeStmts, ih]

/-- If some option in the list fails on every configuration, the whole
option fold fails. -/
theorem applyOptions_error_of_mem :
    ∀ (opts : List ServerOption) (c : ServerConfig) (o : ServerOption),
      o ∈ opts → (∀ c', ∃ e, o c' = Except.error e) →
      ∃ e, applyOptions opts c = Except.error e := by
  intro opts
  induction opts with
  | nil =>
    intro c o h
    cases h
  | cons o' rest ih =>
    intro c o hmem hbad
    rcases List.mem_cons.mp hmem with h | h
    · subst h
      rcases hbad c with ⟨e, he⟩
      exact ⟨e, by simp [applyOptions, he]⟩
    · cases hc : o' c with
      | error e => exact ⟨e, by simp [applyOptions, hc]⟩
      | ok c' =>
        rcases ih c' o h hbad with ⟨e, he⟩
        exact ⟨e, by simp [applyOptions, hc, he]⟩

/-- A `WithServerAddress` option with an empty or connectionless network,
or an empty address, fails on every configuration. -/
theorem withServerAddress_bad_fails (network address : String)
    (hbad : network = "" ∨ network = "udp" ∨ network = "unixgram" ∨ address = "") :
    ∀ c, ∃ e, withServerAddress network address c = Except.error e := by
  intro c
  rcases hbad with h | h | h | h
  · subst h
    exact ⟨"network must not be empty", by simp [withServerAddress]⟩
  · subst h
    exact ⟨"unsupported network " ++ "udp", by simp [withServerAddress]⟩
  · subst h
    exact ⟨"unsupported network " ++ "unixgram", by simp [withServerAddress]⟩
  · by_cases h1 : network = "udp" ∨ network = "unixgram"
    · exact ⟨_, by simp only [withServerAddress]; rw [if_pos h1]⟩
    · by_cases h2 : network = ""
      · exact ⟨_, by simp only [withServerAddress]; rw [if_neg h1, if_pos h2]⟩
      · exact ⟨_, by simp only [withServerAddress]; rw [if_neg h1, if_neg h2, if_pos h]⟩

/-- Once a cancellation observation occurs, `WaitForAddress` has returned. -/
theorem waitForAddress_no_hang (slotAt : Nat → Option Nat) (addrOf : Nat → Nat) (e : Nat) :
    ∀ (obs : List WaitObs) (i : Nat), WaitObs.cancelled e ∈ obs →
      waitForAddressFrom slotAt addrOf i obs ≠ none := by
  intro obs
  induction obs with
  | nil =>
    intro i h
    cases h
  | cons o rest ih =>
    intro i hmem
    cases o with
    | cancelled e' => simp [waitForAddressFrom]
    | tick =>
      have h' : WaitObs.cancelled e ∈ rest := by
        rcases List.mem_cons.mp hmem with h'' | h''
        · simp at h''
        · exact h''
      cases hs : slotAt i with
      | some l => simp [waitForAddressFrom, hs]
      | none => simpa [waitForAddressFrom, hs] using ih (i + 1) h'

/-- `WaitForAddress` only ever returns an address read from a published
listener. -/
theorem waitForAddress_sound (slotAt : Nat → Option Nat) (addrOf : Nat → Nat) :
    ∀ (obs : List WaitObs) (i : Nat) (a : Nat),
      waitForAddressFrom slotAt addrOf i obs = some (Except.ok a) →
      ∃ j l, slotAt j = some l ∧ a = addrOf l := by
  intro obs
  induction obs with
  | nil =>
    intro i a h
    simp [waitForAddressFrom] at h
  | cons o rest ih =>
    intro i a h
    cases o with
    | cancelled e => simp [waitForAddressFrom] at h
    | tick =>
      cases hs : slotAt i with
      | some l =>
        simp [waitForAddressFrom, hs] at h
        exact ⟨i, l, hs, h.symm⟩
      | none => exact ih (i + 1) a (by simpa [waitForAddressFrom, hs] using h)

/-! Claim theorems. -/

/-- C1 counterexample: two concurrent `PrepareContext` callers for the same
uncached key, both passing the read-locked check before either creates,
lead to TWO preparer invocations and to the two callers observing
different statements — the map ends up holding the second one.  This is
the schedule: thread 0 read-miss, thread 1 read-miss, thread 0 creates,
thread 1 creates. -/
theorem prepareContext_race_two_invocations :
    runSchedule freshPreparer "sel" [0, 1, 0, 1]
        { cache := newStmtCache, threads := [ThreadPhase.start, ThreadPhase.start] } =
      { cache := { statements := [("sel", some 1)], invocations := 2 },
        threads := [ThreadPhase.done (Except.ok (some 0)),
                    ThreadPhase.done (Except.ok (some 1))] } ∧
    (2 : Nat) ≠ 1 ∧
    ThreadPhase.done (Except.ok (some 0)) ≠ ThreadPhase.done (Except.ok (some 1)) := by
  refine ⟨by decide, by decide, by decide⟩

/-- C1 (amended): `PrepareContext` does NOT re-check the cache under the
exclusive lock: every caller that missed at the read-locked check invokes
the preparer when it gets the write lock, even if the key is cached by
then (so racing first-time callers can each create, the last write
winning).  A caller whose read-locked check finds the key cached does
return the cached statement without invoking the preparer and without
changing the cache. -/
theorem prepareContext_write_section_always_creates
    (p : Nat → String → Except Nat (Option Nat)) (q : String) (c : StmtCache) :
    ((threadStep p q c ThreadPhase.missed).2).invocations = c.invocations + 1 ∧
    (∀ v, lookupStmt c.statements q = some v →
      threadStep p q c ThreadPhase.start = (ThreadPhase.done (Except.ok v), c)) := by
  constructor
  · cases hp : p c.invocations q <;> simp [threadStep, hp]
  · intro v hv
    simp [threadStep, hv]

/-- C1 witness: the amended theorem applied at a cache already holding
key `sel`: the write section still invokes the preparer (invocation count
3 → 4), while a fresh read-locked check returns the cached statement. -/
theorem prepareContext_write_section_always_creates_holds :
    ((threadStep freshPreparer "sel"
        { statements := [("sel", some 5)], invocations := 3 } ThreadPhase.missed).2).invocations = 4 ∧
    threadStep freshPreparer "sel"
        { statements := [("sel", some 5)], invocations := 3 } ThreadPhase.start =
      (ThreadPhase.done (Except.ok (some 5)),
        { statements := [("sel", some 5)], invocations := 3 }) := by
  have h := prepareContext_write_section_always_creates freshPreparer "sel"
    { statements := [("sel", some 5)], invocations := 3 }
  exact ⟨h.1, h.2 (some 5) (by decide)⟩

/-- C2 counterexample: with middleware M1 added first and M2 added second,
the handler composed by `Run` (`alice.Chain.Then`) runs M1's
pre-processing BEFORE M2's and M2's post-processing before M1's — the
opposite of the claimed order. -/
theorem middleware_order_first_added_outermost_example :
    aliceThen ((emptyServer.addMiddleware (tagMiddleware "1")).addMiddleware
        (tagMiddleware "2")).chain baseApp [] =
      ["pre_1", "pre_2", "app", "post_2", "post_1"] ∧
    ["pre_1", "pre_2", "app", "post_2", "post_1"] ≠
      ["pre_2", "pre_1", "app", "post_1", "post_2"] := by
  refine ⟨by decide, by decide⟩

/-- C2 (amended): for middlewares M1 added first and M2 added second, the
composed handler applies M1 outermost — relative to any pre-existing
chain, the two additions compose as `m1 (m2 base)`, so an inbound request
observes M1's pre-processing before M2's and M2's post-processing before
M1's (first-registered wraps outermost; later additions sit closer to the
application). -/
theorem addMiddleware_first_added_outermost
    (s : ServerState) (m1 m2 : MiddlewareT) (h : HandlerT) :
    aliceThen ((s.addMiddleware m1).addMiddleware m2).chain h =
      aliceThen s.chain (m1 (m2 h)) := by
  simp [aliceThen, ServerState.addMiddleware, aliceAppend, List.foldr_append]

/-- C3: when the key is uncached and the preparer fails, `PrepareContext`
returns that error, caches nothing for the key (the map is unchanged, the
invocation counter records the attempt), and a subsequent call for the
same key misses again and invokes the preparer a second time. -/
theorem prepareContext_error_not_cached
    (p : Nat → String → Except Nat (Option Nat)) (c : StmtCache) (q : String) (e : Nat)
    (hmiss : lookupStmt c.statements q = none)
    (herr : p c.invocations q = Except.error e) :
    StmtCache.prepareContext p c q =
      (Except.error e, { c with invocations := c.invocations + 1 }) ∧
    ((StmtCache.prepareContext p c q).2).statements = c.statements ∧
    ((StmtCache.prepareContext p ((StmtCache.prepareContext p c q).2) q).2).invocations =
      c.invocations + 2 := by
  have h1 : StmtCache.prepareContext p c q =
      (Except.error e, { c with invocations := c.invocations + 1 }) := by
    simp [StmtCache.prepareContext, hmiss, herr]
  refine ⟨h1, by rw [h1], ?_⟩
  rw [h1]
  cases hp : p (c.invocations + 1) q <;>
    simp [StmtCache.prepareContext, hmiss, hp]

/-- C3 witness: a preparer that always fails with error 7 on the empty
cache: the error propagates, nothing is cached, and the second call
invokes the preparer again. -/
theorem prepareContext_error_not_cached_holds :
    StmtCache.prepareContext (fun _ _ => Except.error 7) newStmtCache "q" =
      (Except.error 7, { statements := [], invocations := 1 }) ∧
    ((StmtCache.prepareContext (fun _ _ => Except.error 7) newStmtCache "q").2).statements = [] ∧
    ((StmtCache.prepareContext (fun _ _ => Except.error 7)
        ((StmtCache.prepareContext (fun _ _ => Except.error 7) newStmtCache "q").2) "q").2).invocations = 2 := by
  exact prepareContext_error_not_cached (fun _ _ => Except.error 7) newStmtCache "q" 7 rfl rfl

/-- C4: once a key is cached, `PrepareContext` for that key returns the
cached statement with the whole cache unchanged (in particular the
preparer is not invoked again: the invocation counter is untouched), and
every other cache operation — `PrepareContext`, `QueryContext`,
`ExecContext` on any key — preserves the entry unmutated. -/
theorem prepareContext_memoized
    (p : Nat → String → Except Nat (Option Nat)) (work : Option Nat → Except Nat Nat)
    (c : StmtCache) (q : String) (v : Option Nat)
    (h : lookupStmt c.statements q = some v) :
    StmtCache.prepareContext p c q = (Except.ok v, c) ∧
    (∀ q', lookupStmt ((StmtCache.prepareContext p c q').2).statements q = some v) ∧
    (∀ q', lookupStmt ((StmtCache.queryContext p work c q').2).statements q = some v) ∧
    (∀ q', lookupStmt ((StmtCache.execContext p work c q').2).statements q = some v) := by
  refine ⟨by simp [StmtCache.prepareContext, h], ?_, ?_, ?_⟩
  · intro q'
    exact prepareContext_preserves_entry p c q v h q'
  · intro q'
    rw [queryContext_cache]
    exact prepareContext_preserves_entry p c q v h q'
  · intro q'
    rw [execContext_cache]
    exact prepareContext_preserves_entry p c q v h q'

/-- C4 witness: with key `k` cached, a repeat `PrepareContext` for `k`
returns the cached statement and changes nothing, and a `PrepareContext`
for a different key `j` leaves the `k` entry intact. -/
theorem prepareContext_memoized_holds :
    StmtCache.prepareContext freshPreparer
        { statements := [("k", some 9)], invocations := 1 } "k" =
      (Except.ok (some 9), { statements := [("k", some 9)], invocations := 1 }) ∧
    lookupStmt ((StmtCache.prepareContext freshPreparer
        { statements := [("k", some 9)], invocations := 1 } "j").2).statements "k" =
      some (some 9) := by
  have h := prepareContext_memoized freshPreparer (fun _ => Except.ok 0)
    { statements := [("k", some 9)], invocations := 1 } "k" (some 9) (by decide)
  exact ⟨h.1, h.2.1 "j"⟩

/-- C5: if the option list contains a `WithServerAddress` option with an
empty network family, a connectionless family (`udp`/`unixgram`), or an
empty address, `New` fails: construction returns an error, so no server
value exists for `Run` to bind with — validation happens at construction
time. -/
theorem newServer_rejects_invalid_configuration
    (reflectionService : TwirpServerM) (h2c gzip : MiddlewareT)
    (options : List ServerOption) (network address : String)
    (hmem : withServerAddress network address ∈ options)
    (hbad : network = "" ∨ network = "udp" ∨ network = "unixgram" ∨ address = "") :
    ∃ e, newServer reflectionService h2c gzip options = Except.error e := by
  rcases applyOptions_error_of_mem options defaultServerConfig _ hmem
    (withServerAddress_bad_fails network address hbad) with ⟨e, he⟩
  exact ⟨"failed to create HTTP server " ++ e, by simp [newServer, he]⟩

/-- C5 witness: constructing with a `udp` address option fails. -/
theorem newServer_rejects_invalid_configuration_holds :
    ∃ e, newServer { prefixPath := "/refl", handlerId := 0 } id id
        [withServerAddress "udp" "127.0.0.1:0"] = Except.error e :=
  newServer_rejects_invalid_configuration { prefixPath := "/refl", handlerId := 0 } id id
    [withServerAddress "udp" "127.0.0.1:0"] "udp" "127.0.0.1:0"
    (List.mem_singleton.mpr rfl) (Or.inr (Or.inl rfl))

/-- C6: after a successful bind, when shutdown closes the listener the
serve task maps `http.ErrServerClosed` to nil and the watcher task returns
nil whatever `Shutdown` produced, so `Run` returns nil; conversely a
non-nil `Run` result is possible only when the bind failed or the serve
task failed with an error other than `http.ErrServerClosed`. -/
theorem run_graceful_shutdown_returns_nil
    (s : ServerState) (l : Nat) (shutdownErr : Option Nat) :
    (s.run (Except.ok l) (some errServerClosed) shutdownErr).2 = none ∧
    (s.run (Except.ok l) none shutdownErr).2 = none ∧
    (∀ (bindResult : Except Nat Nat) (serveErr shutdownErr' : Option Nat),
      (s.run bindResult serveErr shutdownErr').2 ≠ none →
      (∃ e, bindResult = Except.error e) ∨
      (∃ e, serveErr = some e ∧ e ≠ errServerClosed)) := by
  refine ⟨?_, ?_, ?_⟩
  · cases shutdownErr <;>
      simp [ServerState.run, egWait, serveTaskResult, shutdownWatcherResult]
  · cases shutdownErr <;>
      simp [ServerState.run, egWait, serveTaskResult, shutdownWatcherResult]
  · intro bindResult serveErr shutdownErr' hne
    cases bindResult with
    | error e => exact Or.inl ⟨e, rfl⟩
    | ok l' =>
      cases serveErr with
      | none =>
        exfalso
        apply hne
        cases shutdownErr' <;>
          simp [ServerState.run, egWait, serveTaskResult, shutdownWatcherResult]
      | some e =>
        by_cases he : e = errServerClosed
        · exfalso
          apply hne
          subst he
          cases shutdownErr' <;>
            simp [ServerState.run, egWait, serveTaskResult, shutdownWatcherResult]
        · exact Or.inr ⟨e, rfl, he⟩

/-- C6 witness: the graceful case returns nil at concrete inputs, and the
only-if direction applied at a concrete bind failure. -/
theorem run_graceful_shutdown_returns_nil_holds :
    (emptyServer.run (Except.ok 5) (some errServerClosed) (some 1)).2 = none ∧
    ((∃ e, (Except.error 3 : Except Nat Nat) = Except.error e) ∨
      (∃ e, (none : Option Nat) = some e ∧ e ≠ errServerClosed)) := by
  have h := run_graceful_shutdown_returns_nil emptyServer 5 (some 1)
  exact ⟨h.1, h.2.2 (Except.error 3) none none (by decide)⟩

/-- C7: `Close` leaves the statements map empty and invokes the teardown
of exactly the non-nil cached statements; the individual teardown results
are ignored, so which statements get released does not depend on whether
any teardown failed. -/
theorem close_empties_and_releases_all
    (closeResult : Nat → Option Nat) (c : StmtCache) :
    ((StmtCache.close closeResult c).1).statements = [] ∧
    ((StmtCache.close closeResult c).2).map Prod.fst = c.statements.filterMap Prod.snd ∧
    (∀ closeResult' : Nat → Option Nat,
      ((StmtCache.close closeResult c).2).map Prod.fst =
        ((StmtCache.close closeResult' c).2).map Prod.fst) := by
  refine ⟨rfl, closeStmts_map_fst closeResult c.statements, ?_⟩
  intro closeResult'
  rw [StmtCache.close, StmtCache.close]
  rw [closeStmts_map_fst closeResult c.statements,
    closeStmts_map_fst closeResult' c.statements]

/-- C8: `WaitForAddress` polls with a 100ms ticker and settles in exactly
one of two ways: a cancellation observation makes it return the
cancellation's error (so it cannot keep looping after cancellation), and
an address is returned only when, and exactly as, a listener was read from
the published slot; when a listener is already published, the next tick
returns its address. -/
theorem waitForAddress_cancel_or_published
    (slotAt : Nat → Option Nat) (addrOf : Nat → Nat) :
    tickPeriodMillis = 100 ∧
    (∀ (i e : Nat) (rest : List WaitObs),
      waitForAddressFrom slotAt addrOf i (WaitObs.cancelled e :: rest) =
        some (Except.error e)) ∧
    (∀ (i : Nat) (obs : List WaitObs), (∃ e, WaitObs.cancelled e ∈ obs) →
      waitForAddressFrom slotAt addrOf i obs ≠ none) ∧
    (∀ (i a : Nat) (obs : List WaitObs),
      waitForAddressFrom slotAt addrOf i obs = some (Except.ok a) →
      ∃ j l, slotAt j = some l ∧ a = addrOf l) ∧
    (∀ (i l : Nat) (rest : List WaitObs), slotAt i = some l →
      waitForAddressFrom slotAt addrOf i (WaitObs.tick :: rest) =
        some (Except.ok (addrOf l))) := by
  refine ⟨rfl, fun i e rest => rfl, ?_, ?_, ?_⟩
  · intro i obs h
    rcases h with ⟨e, hmem⟩
    exact waitForAddress_no_hang slotAt addrOf e obs i hmem
  · intro i a obs h
    exact waitForAddress_sound slotAt addrOf obs i a h
  · intro i l rest h
    simp [waitForAddressFrom, h]

/-- C8 witness: with listener 2 published and addresses given by `l + 10`,
a cancellation observation returns error 9, a tick returns address 12, and
the call has necessarily returned once cancellation was observed. -/
theorem waitForAddress_cancel_or_published_holds :
    waitForAddressFrom (fun _ => some 2) (fun l => l + 10) 0 [WaitObs.cancelled 9] =
      some (Except.error 9) ∧
    waitForAddressFrom (fun _ => some 2) (fun l => l + 10) 0 [WaitObs.tick] =
      some (Except.ok 12) ∧
    waitForAddressFrom (fun _ => some 2) (fun l => l + 10) 0 [WaitObs.cancelled 9] ≠ none := by
  have h := waitForAddress_cancel_or_published (fun _ => some 2) (fun l => l + 10)
  exact ⟨h.2.1 0 9 [], h.2.2.2.2 0 2 [] rfl,
    h.2.2.1 0 [WaitObs.cancelled 9] ⟨9, by simp⟩⟩

/-- C9 counterexample: `Handle` adds a route but does NOT inform the
reflection service — after `Handle` the route table grew while the set of
services known to the reflection service is unchanged (here: a route with
no reflected service at all). -/
theorem handle_does_not_inform_reflection :
    (emptyServer.handle "/foo" 7).reflectionServices = emptyServer.reflectionServices ∧
    (emptyServer.handle "/foo" 7).mux ≠ emptyServer.mux := by
  refine ⟨rfl, by decide⟩

/-- C9 (amended): `RegisterService` both routes the service at its path
prefix and informs the reflection service, while `Handle` only adds the
handler to the route table and leaves the reflection service untouched. -/
theorem registerService_updates_routes_and_reflection
    (s : ServerState) (t : TwirpServerM) (pattern : String) (handler : Nat) :
    (s.registerService t).mux = s.mux ++ [(t.prefixPath, t.handlerId)] ∧
    (s.registerService t).reflectionServices = s.reflectionServices ++ [t] ∧
    (s.handle pattern handler).mux = s.mux ++ [(pattern, handler)] ∧
    (s.handle pattern handler).reflectionServices = s.reflectionServices :=
  ⟨rfl, rfl, rfl, rfl⟩

/-- C10: when the bind fails, `Run` returns the wrapped bind error with
the server state unchanged — in particular nothing was stored in the
listener slot, so a `WaitForAddress` polling that slot can never return an
address. -/
theorem run_bind_failure_leaves_slot_empty
    (s : ServerState) (e : Nat) (serveErr shutdownErr : Option Nat)
    (hslot : s.listenerSlot = none) (addrOf : Nat → Nat) :
    (s.run (Except.error e) serveErr shutdownErr).1 = s ∧
    (s.run (Except.error e) serveErr shutdownErr).2 =
      some (RunError.bindFailed s.config.network s.config.address e) ∧
    (∀ (obs : List WaitObs) (i a : Nat),
      waitForAddressFrom
          (fun _ => (s.run (Except.error e) serveErr shutdownErr).1.listenerSlot)
          addrOf i obs ≠ some (Except.ok a)) := by
  refine ⟨rfl, rfl, ?_⟩
  intro obs i a h
  rcases waitForAddress_sound _ addrOf obs i a h with ⟨j, l, hl, _⟩
  rw [show (s.run (Except.error e) serveErr shutdownErr).1 = s from rfl, hslot] at hl
  cases hl

/-- C10 witness: a concrete failed bind on a fresh server: the state is
unchanged, the wrapped bind error is returned, and polling the slot cannot
yield an address. -/
theorem run_bind_failure_leaves_slot_empty_holds :
    (emptyServer.run (Except.error 3) none none).1 = emptyServer ∧
    (emptyServer.run (Except.error 3) none none).2 =
      some (RunError.bindFailed "tcp" "127.0.0.1:0" 3) ∧
    waitForAddressFrom
        (fun _ => (emptyServer.run (Except.error 3) none none).1.listenerSlot)
        (fun l => l) 0 [WaitObs.tick] ≠ some (Except.ok 0) := by
  have h := run_bind_failure_leaves_slot_empty emptyServer 3 none none rfl (fun l => l)
  exact ⟨h.1, h.2.1, h.2.2 [WaitObs.tick] 0 0⟩
